import Mathlib

set_option maxHeartbeats 1000000

/-!
Shallow embedding of src/DQN/DQN-code/common.py, the multi-threaded
evaluation harness for a reinforcement-learning landmark-detection agent.
Python floats are modelled as exact rationals except where a claim hinges
on binary64 rounding, in which case the rounding step is modelled
explicitly (roundToDouble below).  The environment and predictor are
opaque collaborators, modelled as explicit state-passing functions; the
unbounded while-loop of play_one_episode is modelled with fuel.
-/

/-- A 3-component coordinate vector (numpy arrays loc, target_loc, spacing
indexed 0,1,2 in the source). -/
structure Vec3 where
  x : Rat
  y : Rat
  z : Rat
deriving DecidableEq, Repr

/-- The info dictionary returned by env.step on episode completion
(common.py line 54 reads the keys filename, distError, loc, target_loc,
spacing, start_pos). -/
structure Info where
  filename : String
  distError : Rat
  loc : Vec3
  target_loc : Vec3
  spacing : Vec3
  start_pos : Vec3
deriving DecidableEq, Repr

/-- The 7-tuple returned by play_one_episode (common.py line 54):
sum of rewards plus the metadata drawn from the final info dictionary. -/
structure EpisodeResult where
  sum_r : Rat
  filename : String
  distError : Rat
  loc : Vec3
  target_loc : Vec3
  spacing : Vec3
  start_pos : Vec3
deriving DecidableEq, Repr

/-- Builds the 7-tuple of common.py line 54 from the accumulated reward and
the final info dictionary. -/
def EpisodeResult.ofInfo (total : Rat) (info : Info) : EpisodeResult :=
  { sum_r := total
    filename := info.filename
    distError := info.distError
    loc := info.loc
    target_loc := info.target_loc
    spacing := info.spacing
    start_pos := info.start_pos }

/-- The environment collaborator (spec section 6): reset returns an initial
observation, step takes an action and the q_values extra argument and
returns (observation, reward, done, info).  The hidden mutable state of the
Python object is made explicit as a state component of type S threaded
through both calls; O is the observation type. -/
structure Env (S O : Type) where
  reset : S → S × O
  step : S → Nat → List Rat → S × O × Rat × Bool × Info

/-- Tail of the first-maximum scan underlying numpy argmax: best is the
index of the strictly greatest value seen so far, bv its value, i the index
of the head of the remaining list. -/
def listArgmaxGo (best : Nat) (bv : Rat) (i : Nat) : List Rat → Nat
  | [] => best
  | v :: vs => if bv < v then listArgmaxGo i v (i + 1) vs else listArgmaxGo best bv (i + 1) vs

/-- Index of the first maximal element, as numpy argmax computes it
(common.py line 37); an empty vector is mapped to 0. -/
def listArgmax : List Rat → Nat
  | [] => 0
  | v :: vs => listArgmaxGo 0 v 1 vs

/-- The nested predict of common.py lines 30-43: the q-value vector is the
prediction function applied to the observation (the numpy batching
func(s[None])[0][0] is collapsed into func itself), and the action is its
argmax; eps-greedy exploration is commented out in the source.  Returns
(act, q_values) as line 43 does. -/
def predictAct {O : Type} (func : O → List Rat) (ob : O) : Nat × List Rat :=
  let q_values := func ob
  (listArgmax q_values, q_values)

/-- The while-True loop of common.py lines 47-54, with fuel making the
possibly non-terminating loop total: each iteration predicts greedily,
steps the environment, accumulates the reward, and on isOver returns the
7-tuple of line 54 together with the final environment state. -/
def playLoop {S O : Type} (env : Env S O) (func : O → List Rat) :
    Nat → S → O → Rat → Option (EpisodeResult × S)
  | 0, _, _, _ => none
  | fuel + 1, s, ob, sum_r =>
    let pr := predictAct func ob
    let st := env.step s pr.1 pr.2
    if st.2.2.2.1 then some (EpisodeResult.ofInfo (sum_r + st.2.2.1) st.2.2.2.2, st.1)
    else playLoop env func fuel st.1 st.2.1 (sum_r + st.2.2.1)

/-- The function play_one_episode of common.py lines 29-54: reset the
environment, then loop until the environment reports completion.  The
render branch (line 50) only calls the side-effecting env.render and is
omitted.  Returns none when the loop exceeds the fuel bound. -/
def play_one_episode {S O : Type} (env : Env S O) (func : O → List Rat) (fuel : Nat) (s : S) :
    Option (EpisodeResult × S) :=
  playLoop env func fuel (env.reset s).1 (env.reset s).2 0

/-- One cell of the tabular result list built by play_n_episodes: the rows
mix an integer index, strings and numbers. -/
inductive Cell where
  | nat : Nat → Cell
  | str : String → Cell
  | num : Rat → Cell
deriving DecidableEq, Repr

/-- The fixed header row appended first by play_n_episodes
(common.py lines 63-66). -/
def headerRow : List Cell :=
  [Cell.str "idx_num", Cell.str "filename", Cell.str "score", Cell.str "distance_error",
   Cell.str "final_coordinates_x", Cell.str "final_coordinates_y", Cell.str "final_coordinates_z",
   Cell.str "target_x", Cell.str "target_y", Cell.str "target_z",
   Cell.str "spacing_x", Cell.str "spacing_y", Cell.str "spacing_z"]

/-- The per-episode row appended by play_n_episodes (common.py lines 76-79)
for loop index k (zero-based, the row stores k + 1). -/
def episodeRow (k : Nat) (res : EpisodeResult) : List Cell :=
  [Cell.nat (k + 1), Cell.str res.filename, Cell.num res.sum_r, Cell.num res.distError,
   Cell.num res.loc.x, Cell.num res.loc.y, Cell.num res.loc.z,
   Cell.num res.target_loc.x, Cell.num res.target_loc.y, Cell.num res.target_loc.z,
   Cell.num res.spacing.x, Cell.num res.spacing.y, Cell.num res.spacing.z]

/-- The for-loop of common.py lines 67-79 starting at loop index k with n
episodes left to play; the player state is threaded from one episode to the
next exactly as the single player object is reused in the source.  Returns
none when some episode exhausts its fuel. -/
def playEpisodesFrom {S O : Type} (env : Env S O) (func : O → List Rat) (fuel : Nat) :
    Nat → Nat → S → Option (List (List Cell))
  | _, 0, _ => some []
  | k, n + 1, s =>
    match play_one_episode env func fuel s with
    | none => none
    | some (res, s1) =>
      match playEpisodesFrom env func fuel (k + 1) n s1 with
      | none => none
      | some rest => some (episodeRow k res :: rest)

/-- The function play_n_episodes of common.py lines 58-80: the header row
followed by one data row per episode, in episode order. -/
def play_n_episodes {S O : Type} (env : Env S O) (func : O → List Rat) (fuel : Nat)
    (nr : Nat) (s : S) : Option (List (List Cell)) :=
  match playEpisodesFrom env func fuel 0 nr s with
  | none => none
  | some rows => some (headerRow :: rows)

/-- A Python value as it travels through the worker code: the elements of
the 7-tuple returned by play_one_episode and the items placed on the two
result queues. -/
inductive PyVal where
  | num : Rat → PyVal
  | str : String → PyVal
  | vec : Vec3 → PyVal
deriving DecidableEq, Repr

/-- Numeric view of a queue item, as StatCounter.feed consumes it; only
numbers are ever placed on the queues by the source. -/
def PyVal.toRat : PyVal → Rat
  | PyVal.num r => r
  | _ => 0

/-- A Python exception, identified by its class as the except clauses of
the source discriminate, together with its message. -/
inductive PyExc where
  | runtimeError : String → PyExc
  | valueError : String → PyExc
  | other : String → String → PyExc
deriving DecidableEq, Repr

/-- Python tuple unpacking into four names, as on common.py line 111:
succeeds exactly when the unpacked value has four elements and raises
ValueError otherwise. -/
def pyUnpack4 (vs : List PyVal) : Except PyExc (PyVal × PyVal × PyVal × PyVal) :=
  match vs with
  | [a, b, c, d] => Except.ok (a, b, c, d)
  | vs =>
    if vs.length < 4 then Except.error (PyExc.valueError "not enough values to unpack (expected 4)")
    else Except.error (PyExc.valueError "too many values to unpack (expected 4)")

/-- The value returned by play_one_episode seen as the Python 7-tuple of
common.py line 54, in source order. -/
def EpisodeResult.toTuple (res : EpisodeResult) : List PyVal :=
  [PyVal.num res.sum_r, PyVal.str res.filename, PyVal.num res.distError,
   PyVal.vec res.loc, PyVal.vec res.target_loc, PyVal.vec res.spacing,
   PyVal.vec res.start_pos]

/-- The method Worker.func of common.py lines 100-103: when the stop flag
is observed the call raises RuntimeError with message stopped!, otherwise
it returns the result of the wrapped prediction function. -/
def Worker.funcCall {A : Type} (stopFlag : Bool) (underlying : A) : Except PyExc A :=
  if stopFlag then Except.error (PyExc.runtimeError "stopped!") else Except.ok underlying

/-- Observable outcome of one iteration of the while-loop body in
Worker.run (common.py lines 109-116). -/
inductive WorkerStep where
  | pushed : PyVal → PyVal → WorkerStep
  | exitClean : WorkerStep
  | crashed : PyExc → WorkerStep
deriving DecidableEq, Repr

/-- One iteration of the loop body of Worker.run (common.py lines 110-116),
given the outcome of the play_one_episode call: a RuntimeError is caught
by the except clause and the method returns (clean thread exit); any other
exception propagates uncaught; on a normal return the 7-tuple is unpacked
into the four names score, filename, ditance_error, q_values (line 111)
and, when the unpack succeeds, score and ditance_error are put on the two
queues (lines 115-116). -/
def Worker.runBody (outcome : Except PyExc EpisodeResult) : WorkerStep :=
  match outcome with
  | Except.error (PyExc.runtimeError _) => WorkerStep.exitClean
  | Except.error e => WorkerStep.crashed e
  | Except.ok res =>
    match pyUnpack4 res.toTuple with
    | Except.error e => WorkerStep.crashed e
    | Except.ok (score, _filename, ditance_error, _q_values) =>
      WorkerStep.pushed score ditance_error

/-- Modelled from the spec: the running statistic counter StatCounter of
the external tensorpack library (spec section 3: count, sum, max, mutated
incrementally by feed, queried via average and max; spec section 8:
average equals sum divided by count and max equals the maximum of the fed
values).  The counter stores the fed values in arrival order. -/
structure StatCounter where
  values : List Rat
deriving DecidableEq, Repr

/-- Modelled from the spec: a fresh counter holds no values. -/
def StatCounter.empty : StatCounter := { values := [] }

/-- Modelled from the spec: feed appends one value. -/
def StatCounter.feed (c : StatCounter) (v : Rat) : StatCounter :=
  { values := c.values ++ [v] }

/-- Modelled from the spec: count is the number of fed values. -/
def StatCounter.count (c : StatCounter) : Nat := c.values.length

/-- Modelled from the spec: average is the sum of the fed values divided by
their count (the source only queries it when count is positive). -/
def StatCounter.average (c : StatCounter) : Rat := c.values.sum / (c.count : Rat)

/-- Modelled from the spec: max of the fed values (the source only queries
it when count is positive; an empty counter is mapped to 0). -/
def StatCounter.maxValue (c : StatCounter) : Rat :=
  match c.values with
  | [] => 0
  | v :: vs => vs.foldl max v

/-- Arithmetic mean of a list, the spec-side reading of mean score and mean
distance error. -/
def listMean (l : List Rat) : Rat := l.sum / (l.length : Rat)

/-- Maximum of a list (0 for the empty list), the spec-side reading of max
score and max distance error. -/
def listMax (l : List Rat) : Rat :=
  match l with
  | [] => 0
  | v :: vs => vs.foldl max v

/-- The main-thread aggregation of eval_with_funcs (common.py lines
127-152) applied to the full multiset of (score, distance) pairs the main
thread dequeues: every pair is fed into the two StatCounters (the tqdm
loop feeds the first nr_eval pairs, the two drain loops feed the rest),
then the final branch returns the four statistics when the score counter
is non-empty and the zero tuple otherwise (lines 150-152). -/
def evalAggregate (collected : List (Rat × Rat)) : Rat × Rat × Rat × Rat :=
  let stat := collected.foldl (fun c p => c.feed p.1) StatCounter.empty
  let dist_stat := collected.foldl (fun c p => c.feed p.2) StatCounter.empty
  if stat.count > 0 then
    (stat.average, stat.maxValue, dist_stat.average, dist_stat.maxValue)
  else (0, 0, 0, 0)

/-- The observable behaviour of eval_with_funcs (common.py lines 85-152)
over the queue contents: pushes is the list of (score, distance) pairs the
workers ever successfully put on the two queues.  The main thread blocks
dequeuing nr_eval pairs (none models blocking forever when fewer than
nr_eval pairs are ever enqueued), then stops and joins the workers and
drains every remaining pair, so the pairs fed to the counters are exactly
the enqueued pairs; the pairing of the two queues is justified because the
two puts of lines 115-116 are consecutive in each worker. -/
def eval_with_funcs (pushes : List (PyVal × PyVal)) (nr_eval : Nat) :
    Option (Rat × Rat × Rat × Rat) :=
  if nr_eval ≤ pushes.length then
    some (evalAggregate (pushes.map fun p => (p.1.toRat, p.2.toRat)))
  else none

/-- Python int() applied to a real number: truncation toward zero. -/
def pyInt (x : Rat) : Int :=
  if x < 0 then -(Int.floor (-x)) else Int.floor x

/-- Binade search: starting from the accumulator e with current value y
(invariant y = x divided by 2 to the e), halve or double until y lies in
the interval from 1 inclusive to 2 exclusive and return the exponent; the
fuel bounds the search and is ample for every binary64 magnitude. -/
def expSearch : Nat → Rat → Int → Int
  | 0, _, e => e
  | f + 1, y, e =>
    if y < 1 then expSearch f (y * 2) (e - 1)
    else if y < 2 then e
    else expSearch f (y / 2) (e + 1)

/-- Floor of the base-2 logarithm of a positive rational, computed by
binade search with fuel 1100 (enough for every magnitude between 2 to the
minus 1099 and 2 to the 1100). -/
def ratLog2Floor (x : Rat) : Int := expSearch 1100 x 0

/-- Round to the nearest integer, ties to even: the rounding mode of IEEE
754 binary64 arithmetic. -/
def roundHalfEven (y : Rat) : Int :=
  let f := Int.floor y
  if y - (f : Rat) < 1 / 2 then f
  else if (1 : Rat) / 2 < y - (f : Rat) then f + 1
  else if f % 2 = 0 then f else f + 1

/-- Round a positive rational to 53 significant bits, ties to even: the
scaled significand x times 2 to the (52 minus e) lies in the binade from
2 to the 52 to 2 to the 53 and is rounded to an integer. -/
def roundPos (x : Rat) : Rat :=
  let e := ratLog2Floor x
  ((roundHalfEven (x * (2 : Rat) ^ ((52 : Int) - e)) : Int) : Rat) * (2 : Rat) ^ (e - (52 : Int))

/-- Round a rational to the nearest IEEE 754 binary64 value (normal range;
overflow and subnormals do not arise for the budgets considered). -/
def roundToDouble (x : Rat) : Rat :=
  if x = 0 then 0
  else if x < 0 then -(roundPos (-x))
  else roundPos x

/-- The exact rational value of the binary64 floating-point literal 0.94
appearing on common.py line 194: 2116691824864133 divided by 2 to the 51,
slightly below 94/100. -/
def double094 : Rat := 2116691824864133 / 2251799813685248

/-- The budget update of Evaluator._trigger (common.py lines 193-194): when
the measured evaluation wall-clock t exceeds 10 * 60 seconds, the episode
budget becomes int(eval_episode * 0.94) where the product is one binary64
multiplication (exact for budgets below 2 to the 53) and int() truncates
toward zero; otherwise the budget is unchanged. -/
def Evaluator.updateBudget (eval_episode : Int) (t : Rat) : Int :=
  if t > 10 * 60 then pyInt (roundToDouble ((eval_episode : Rat) * double094))
  else eval_episode

/-- The episode budget after a sequence of triggers with the given measured
wall-clock times, starting from budget n (Evaluator.eval_episode is only
written by the update of common.py line 194). -/
def budgetAfter (ts : List Rat) (n : Int) : Int :=
  ts.foldl Evaluator.updateBudget n

/-- Spec-side description of one episode (spec section 4.1): starting from
environment state s and observation ob, every action is the greedy argmax
of the predicted q-values, the environment is stepped until it reports
completion, rs is the list of per-step rewards in order, info the info
dictionary of the final step and sEnd the environment state after the
final step. -/
inductive GreedyRun {S O : Type} (env : Env S O) (func : O → List Rat) :
    S → O → List Rat → Info → S → Prop
  | done {s : S} {ob : O} {s1 : S} {ob1 : O} {r : Rat} {info : Info} :
      env.step s (listArgmax (func ob)) (func ob) = (s1, ob1, r, true, info) →
      GreedyRun env func s ob [r] info s1
  | more {s : S} {ob : O} {s1 : S} {ob1 : O} {r : Rat} {info1 : Info}
      {rs : List Rat} {info : Info} {sEnd : S} :
      env.step s (listArgmax (func ob)) (func ob) = (s1, ob1, r, false, info1) →
      GreedyRun env func s1 ob1 rs info sEnd →
      GreedyRun env func s ob (r :: rs) info sEnd

/-- The info dictionary of the deterministic stub environment used to
evaluate the theorems on concrete inputs. -/
def stubInfo : Info :=
  { filename := "stub.nii"
    distError := 2
    loc := { x := 1, y := 2, z := 3 }
    target_loc := { x := 1, y := 2, z := 4 }
    spacing := { x := 1, y := 1, z := 1 }
    start_pos := { x := 0, y := 0, z := 0 } }

/-- A deterministic stub environment whose every episode ends on the first
step with reward 1. -/
def stubEnv : Env Unit Unit :=
  { reset := fun _ => ((), ())
    step := fun _ _ _ => ((), (), 1, true, stubInfo) }

/-- A deterministic stub predictor with a single action. -/
def stubFunc : Unit → List Rat := fun _ => [0]

/-- The episode result the stub environment produces. -/
def stubRes : EpisodeResult := EpisodeResult.ofInfo 1 stubInfo

/-- The concrete table the stub environment produces for three episodes. -/
def stubRows3 : List (List Cell) :=
  [headerRow, episodeRow 0 stubRes, episodeRow 1 stubRes, episodeRow 2 stubRes]

/-- The concrete table the stub environment produces for two episodes. -/
def stubRows2 : List (List Cell) :=
  [headerRow, episodeRow 0 stubRes, episodeRow 1 stubRes]

/-! Theorems. -/

/-- Helper: the fold feeding one projection of every collected pair into a
StatCounter appends exactly the projected values, in order. -/
theorem statFold_values (g : Rat × Rat → Rat) (l : List (Rat × Rat)) (c : StatCounter) :
    (l.foldl (fun c p => c.feed (g p)) c).values = c.values ++ l.map g := by
  induction l generalizing c with
  | nil => simp
  | cons p ps ih =>
    rw [List.foldl_cons, ih]
    simp [StatCounter.feed]

/-- Helper: average of a StatCounter is the mean of its value list. -/
theorem StatCounter.average_eq (c : StatCounter) : c.average = listMean c.values := rfl

/-- Helper: maxValue of a StatCounter is the max of its value list. -/
theorem StatCounter.maxValue_eq (c : StatCounter) : c.maxValue = listMax c.values := rfl

/-- Helper: the main-thread aggregation returns the four statistics of the
collected pairs when at least one pair was collected, and the zero tuple
otherwise. -/
theorem evalAggregate_eq (l : List (Rat × Rat)) :
    evalAggregate l =
      if 0 < l.length then
        (listMean (l.map Prod.fst), listMax (l.map Prod.fst),
         listMean (l.map Prod.snd), listMax (l.map Prod.snd))
      else (0, 0, 0, 0) := by
  have h1 := statFold_values Prod.fst l StatCounter.empty
  have h2 := statFold_values Prod.snd l StatCounter.empty
  have hc : ∀ d : StatCounter, d.count = d.values.length := fun d => rfl
  simp only [evalAggregate, StatCounter.average_eq, StatCounter.maxValue_eq, hc, h1, h2]
  simp [StatCounter.empty]

/-- Claim C2: eval_with_funcs returns the 4-tuple (mean score, max score,
mean distance error, max distance error) over all collected results when at
least one result was collected, and returns the explicit zero tuple
(0, 0, 0, 0) rather than failing when zero results were collected.  The
hypothesis nr less-or-equal the number of enqueued pairs is the condition
under which the dequeue loop does not block forever. -/
theorem eval_with_funcs_return (pushes : List (PyVal × PyVal)) (nr : Nat)
    (h : nr ≤ pushes.length) :
    (pushes ≠ [] →
      eval_with_funcs pushes nr = some
        (listMean (pushes.map fun p => p.1.toRat), listMax (pushes.map fun p => p.1.toRat),
         listMean (pushes.map fun p => p.2.toRat), listMax (pushes.map fun p => p.2.toRat))) ∧
    (pushes = [] → eval_with_funcs pushes nr = some (0, 0, 0, 0)) := by
  constructor
  · intro hne
    rw [eval_with_funcs, if_pos h, evalAggregate_eq]
    rw [if_pos (by simpa using List.length_pos.mpr hne)]
    simp only [List.map_map]
    exact rfl
  · intro he
    subst he
    simp at h
    subst h
    rfl

/-- Witness for C2 at two concrete collected pairs and at the empty
collection. -/
theorem eval_with_funcs_return_witness :
    eval_with_funcs [(PyVal.num 3, PyVal.num 4), (PyVal.num 1, PyVal.num 2)] 1 =
      some (2, 3, 3, 4) ∧
    eval_with_funcs [] 0 = some (0, 0, 0, 0) := by
  constructor
  · have h := (eval_with_funcs_return
      [(PyVal.num 3, PyVal.num 4), (PyVal.num 1, PyVal.num 2)] 1 (by decide)).1 (by decide)
    rw [h]
    norm_num [listMean, listMax, PyVal.toRat, max_def]
  · exact (eval_with_funcs_return [] 0 (by decide)).2 rfl

/-- Claim C1 (the code contradicts it): for every successfully completed
episode, the loop body of Worker.run crashes with an uncaught ValueError:
play_one_episode returns a 7-tuple (common.py line 54) but line 111 unpacks
it into the four names score, filename, ditance_error, q_values, so control
never reaches the queue puts of lines 115-116 and no (score, distance)
pair is ever pushed. -/
theorem worker_runBody_crashes (res : EpisodeResult) :
    Worker.runBody (Except.ok res) =
      WorkerStep.crashed (PyExc.valueError "too many values to unpack (expected 4)") := rfl

/-- Helper: no outcome of an episode makes the worker loop body reach the
queue puts. -/
theorem runBody_ne_pushed (out : Except PyExc EpisodeResult) (a b : PyVal) :
    Worker.runBody out ≠ WorkerStep.pushed a b := by
  match out with
  | Except.ok res =>
    intro hcontra
    rw [show Worker.runBody (Except.ok res) =
      WorkerStep.crashed (PyExc.valueError "too many values to unpack (expected 4)") from rfl]
      at hcontra
    cases hcontra
  | Except.error (PyExc.runtimeError m) => intro hcontra; cases hcontra
  | Except.error (PyExc.valueError m) => intro hcontra; cases hcontra
  | Except.error (PyExc.other n m) => intro hcontra; cases hcontra

/-- Claim C3: with nr_eval equal to 0 eval_with_funcs returns exactly
(0, 0, 0, 0) and does not block (the result is some, never none), for
every list of predictors and environment factory: the hypothesis states
that every pair on the queues was pushed by some iteration of a worker
loop body, and no loop body ever pushes. -/
theorem eval_with_funcs_zero (pushes : List (PyVal × PyVal))
    (h : ∀ p ∈ pushes, ∃ out, Worker.runBody out = WorkerStep.pushed p.1 p.2) :
    eval_with_funcs pushes 0 = some (0, 0, 0, 0) := by
  have hnil : pushes = [] := by
    cases pushes with
    | nil => rfl
    | cons p ps =>
      obtain ⟨out, hout⟩ := h p (by simp)
      exact absurd hout (runBody_ne_pushed out p.1 p.2)
  subst hnil
  rfl

/-- Witness for C3 at the only queue content the workers can produce. -/
theorem eval_with_funcs_zero_witness : eval_with_funcs [] 0 = some (0, 0, 0, 0) :=
  eval_with_funcs_zero [] (by simp)

/-- Claim C7, amended: the stop flag observed during a prediction call
raises RuntimeError with message stopped!, and the except clause at the top
of the worker run loop catches every RuntimeError (the stop signal and any
other RuntimeError from predictor or environment alike), exiting the
thread cleanly; exceptions of any other class are not caught. -/
theorem worker_catch_discipline :
    (∀ (A : Type) (v : A), Worker.funcCall true v = Except.error (PyExc.runtimeError "stopped!")) ∧
    (∀ (A : Type) (v : A), Worker.funcCall false v = Except.ok v) ∧
    (∀ m, Worker.runBody (Except.error (PyExc.runtimeError m)) = WorkerStep.exitClean) ∧
    (∀ m, Worker.runBody (Except.error (PyExc.valueError m)) =
      WorkerStep.crashed (PyExc.valueError m)) ∧
    (∀ cls m, Worker.runBody (Except.error (PyExc.other cls m)) =
      WorkerStep.crashed (PyExc.other cls m)) :=
  ⟨fun _ _ => rfl, fun _ _ => rfl, fun _ => rfl, fun _ => rfl, fun _ _ => rfl⟩

/-- Counterexample to C7 as stated: a RuntimeError raised by the predictor
or environment for a reason other than the stop signal is also caught by
the except clause and turned into a clean exit, though it is not the
stop-indicating condition. -/
theorem worker_swallows_foreign_runtimeError :
    Worker.runBody (Except.error (PyExc.runtimeError "CUDA error")) = WorkerStep.exitClean ∧
    PyExc.runtimeError "CUDA error" ≠ PyExc.runtimeError "stopped!" :=
  ⟨rfl, by decide⟩

/-- Helper: the episode loop starting at index k with n episodes to play
produces n rows whose first cells are the 1-based indices k+1, ..., k+n and
whose lengths are all 13. -/
theorem playEpisodesFrom_spec {S O : Type} (env : Env S O) (func : O → List Rat) (fuel : Nat) :
    ∀ (n k : Nat) (s : S) (l : List (List Cell)),
      playEpisodesFrom env func fuel k n s = some l →
      l.length = n ∧
      l.map List.head? = (List.range n).map (fun i => some (Cell.nat (k + i + 1))) ∧
      l.map List.length = List.replicate n 13 := by
  intro n
  induction n with
  | zero =>
    intro k s l h
    simp only [playEpisodesFrom] at h
    injection h with h
    subst h
    simp
  | succ n ih =>
    intro k s l h
    simp only [playEpisodesFrom] at h
    rcases hp : play_one_episode env func fuel s with _ | ⟨res, s1⟩ <;> rw [hp] at h <;>
      dsimp only at h
    · cases h
    · rcases hr : playEpisodesFrom env func fuel (k + 1) n s1 with _ | rest <;> rw [hr] at h <;>
        dsimp only at h
      · cases h
      · injection h with h
        subst h
        obtain ⟨hl, hh, hlen⟩ := ih (k + 1) s1 rest hr
        refine ⟨by simp [hl], ?_, by simp [hlen, episodeRow, List.replicate_succ]⟩
        rw [List.map_cons, hh, List.range_succ_eq_map, List.map_cons, List.map_map]
        have hfun : (fun i => some (Cell.nat (k + 1 + i + 1))) =
            ((fun i => some (Cell.nat (k + i + 1))) ∘ Nat.succ) := by
          funext i
          have hk : k + 1 + i + 1 = k + (i + 1) + 1 := by omega
          simp [Function.comp, hk]
        rw [hfun]
        simp [episodeRow]

/-- Claim C5: for every nr of episodes, play_n_episodes produces exactly nr
result rows (beyond the header), and the idx_num field (first cell) of the
i-th result row is the 1-based episode index i+1. -/
theorem play_n_episodes_idx {S O : Type} (env : Env S O) (func : O → List Rat)
    (fuel nr : Nat) (s : S) (rows : List (List Cell))
    (h : play_n_episodes env func fuel nr s = some rows) :
    rows.tail.length = nr ∧
    rows.tail.map List.head? = (List.range nr).map (fun i => some (Cell.nat (i + 1))) := by
  simp only [play_n_episodes] at h
  rcases hp : playEpisodesFrom env func fuel 0 nr s with _ | l <;> rw [hp] at h <;>
    dsimp only at h
  · cases h
  · injection h with h
    subst h
    obtain ⟨hl, hh, _⟩ := playEpisodesFrom_spec env func fuel nr 0 s l hp
    exact ⟨by simpa using hl, by simpa using hh⟩

/-- Witness for C5: the stub environment with nr = 3 yields exactly 3
result rows with idx_num 1, 2, 3. -/
theorem play_n_episodes_idx_witness :
    stubRows3.tail.length = 3 ∧
    stubRows3.tail.map List.head? = (List.range 3).map (fun i => some (Cell.nat (i + 1))) :=
  play_n_episodes_idx stubEnv stubFunc 1 3 () stubRows3 (by
    simp only [play_n_episodes, playEpisodesFrom, play_one_episode, playLoop, predictAct,
      stubEnv, stubFunc, listArgmax, listArgmaxGo, stubRows3, stubRes]
    norm_num [EpisodeResult.ofInfo])

/-- Claim C10: for every nr, the list returned by play_n_episodes has
length nr + 1, its first element is the fixed 13-name header row, and every
subsequent row has exactly 13 entries. -/
theorem play_n_episodes_shape {S O : Type} (env : Env S O) (func : O → List Rat)
    (fuel nr : Nat) (s : S) (rows : List (List Cell))
    (h : play_n_episodes env func fuel nr s = some rows) :
    rows.length = nr + 1 ∧ rows.head? = some headerRow ∧ headerRow.length = 13 ∧
    rows.tail.map List.length = List.replicate nr 13 := by
  simp only [play_n_episodes] at h
  rcases hp : playEpisodesFrom env func fuel 0 nr s with _ | l <;> rw [hp] at h <;>
    dsimp only at h
  · cases h
  · injection h with h
    subst h
    obtain ⟨hl, _, hlen⟩ := playEpisodesFrom_spec env func fuel nr 0 s l hp
    exact ⟨by simp [hl], rfl, rfl, by simpa using hlen⟩

/-- Witness for C10: the stub environment with nr = 2. -/
theorem play_n_episodes_shape_witness :
    stubRows2.length = 2 + 1 ∧ stubRows2.head? = some headerRow ∧ headerRow.length = 13 ∧
    stubRows2.tail.map List.length = List.replicate 2 13 :=
  play_n_episodes_shape stubEnv stubFunc 1 2 () stubRows2 (by
    simp only [play_n_episodes, playEpisodesFrom, play_one_episode, playLoop, predictAct,
      stubEnv, stubFunc, listArgmax, listArgmaxGo, stubRows2, stubRes]
    norm_num [EpisodeResult.ofInfo])

/-- Helper, soundness half for C4: a successful run of the episode loop
yields a greedy run whose rewards sum (on top of the accumulator) to the
returned score and whose final info dictionary supplies the metadata. -/
theorem playLoop_sound {S O : Type} (env : Env S O) (func : O → List Rat) :
    ∀ (fuel : Nat) (s : S) (ob : O) (acc : Rat) (res : EpisodeResult) (sEnd : S),
      playLoop env func fuel s ob acc = some (res, sEnd) →
      ∃ rs info, rs.length ≤ fuel ∧ GreedyRun env func s ob rs info sEnd ∧
        res = EpisodeResult.ofInfo (acc + rs.sum) info := by
  intro fuel
  induction fuel with
  | zero => intro s ob acc res sEnd h; cases h
  | succ f ih =>
    intro s ob acc res sEnd h
    rcases hst : env.step s (listArgmax (func ob)) (func ob) with ⟨s1, ob1, r, isOver, info⟩
    simp only [playLoop, predictAct, hst] at h
    cases isOver with
    | true =>
      simp at h
      obtain ⟨hres, hsEnd⟩ := h
      subst hsEnd
      exact ⟨[r], info, by simp, GreedyRun.done hst, by simp [← hres]⟩
    | false =>
      simp at h
      obtain ⟨rs, info2, hlen, hrun, hres⟩ := ih _ _ (acc + r) res sEnd h
      exact ⟨r :: rs, info2, by simpa using hlen, GreedyRun.more hst hrun,
        by rw [hres]; simp [add_assoc]⟩

/-- Helper, completeness half for C4: every greedy run is reproduced by the
episode loop given enough fuel. -/
theorem playLoop_complete {S O : Type} (env : Env S O) (func : O → List Rat)
    {s : S} {ob : O} {rs : List Rat} {info : Info} {sEnd : S}
    (hrun : GreedyRun env func s ob rs info sEnd) :
    ∀ (fuel : Nat) (acc : Rat), rs.length ≤ fuel →
      playLoop env func fuel s ob acc =
        some (EpisodeResult.ofInfo (acc + rs.sum) info, sEnd) := by
  induction hrun with
  | done hst =>
    intro fuel acc hlen
    obtain ⟨f, rfl⟩ : ∃ f, fuel = f + 1 := ⟨fuel - 1, by simp at hlen; omega⟩
    simp [playLoop, predictAct, hst]
  | more hst _ ih =>
    intro fuel acc hlen
    obtain ⟨f, rfl⟩ : ∃ f, fuel = f + 1 := ⟨fuel - 1, by simp at hlen; omega⟩
    simp only [playLoop, predictAct, hst]
    rw [if_neg (by simp)]
    rw [ih f (acc + _) (by simp at hlen ⊢; omega)]
    simp [add_assoc]

/-- Claim C4: play_one_episode resets the environment, chooses every action
as the greedy argmax over the predicted action-values with no exploration,
loops until the environment reports completion, and returns exactly the
accumulated sum of per-step rewards together with the metadata drawn from
the final info dictionary (filename, distance error, final location,
target location, spacing, start position); formally a terminating call is
equivalent to the existence of a greedy run of at most fuel steps. -/
theorem play_one_episode_greedy {S O : Type} (env : Env S O) (func : O → List Rat)
    (fuel : Nat) (s : S) (res : EpisodeResult) (sEnd : S) :
    play_one_episode env func fuel s = some (res, sEnd) ↔
      ∃ rs info, rs.length ≤ fuel ∧
        GreedyRun env func (env.reset s).1 (env.reset s).2 rs info sEnd ∧
        res = EpisodeResult.ofInfo rs.sum info := by
  rw [play_one_episode]
  constructor
  · intro h
    obtain ⟨rs, info, hlen, hrun, hres⟩ :=
      playLoop_sound env func fuel (env.reset s).1 (env.reset s).2 0 res sEnd h
    exact ⟨rs, info, hlen, hrun, by simpa using hres⟩
  · rintro ⟨rs, info, hlen, hrun, hres⟩
    rw [playLoop_complete env func hrun fuel 0 hlen, hres]
    simp

/-- Helper: powers of two step up by a factor 2. -/
theorem two_zpow_succ (n : Int) : (2:Rat) ^ (n + 1) = 2 ^ n * 2 :=
  zpow_add_one₀ (by norm_num) n

/-- Helper: powers of two step down by a factor 2. -/
theorem two_zpow_pred (n : Int) : (2:Rat) ^ (n - 1) = 2 ^ n / 2 := by
  rw [zpow_sub_one₀ (by norm_num : (2:Rat) ≠ 0)]
  ring

/-- Helper: the binade search is correct whenever the fuel covers the
magnitude of its argument: the returned exponent u satisfies
2 ^ (u - e) ≤ y < 2 ^ (u - e + 1). -/
theorem expSearch_spec : ∀ (f : Nat) (y : Rat) (e : Int),
    (2:Rat) ^ (1 - (f:Int)) ≤ y → y < (2:Rat) ^ (f:Int) →
    (2:Rat) ^ (expSearch f y e - e) ≤ y ∧ y < (2:Rat) ^ (expSearch f y e - e + 1) := by
  intro f
  induction f with
  | zero =>
    intro y e h1 h2
    norm_num at h1 h2
    linarith
  | succ f ih =>
    intro y e h1 h2
    push_cast at h1 h2
    simp only [expSearch]
    split_ifs with hy1 hy2
    · rcases Nat.eq_zero_or_pos f with hf | hf
      · subst hf
        exfalso
        norm_num at h1
        linarith
      · have e1 : (1:Int) - ((f:Int) + 1) = (1 - (f:Int)) - 1 := by ring
        rw [e1, two_zpow_pred] at h1
        have h2f : (2:Rat) ≤ 2 ^ ((f:Int)) := by
          calc (2:Rat) = 2 ^ (1:Int) := (zpow_one 2).symm
          _ ≤ 2 ^ ((f:Int)) := zpow_le_zpow_right₀ (by norm_num) (by exact_mod_cast hf)
        obtain ⟨ha, hb⟩ := ih (y * 2) (e - 1) (by linarith) (by linarith)
        constructor
        · have eL : expSearch f (y * 2) (e - 1) - (e - 1) =
              (expSearch f (y * 2) (e - 1) - e) + 1 := by ring
          rw [eL, two_zpow_succ] at ha
          linarith
        · have eR : expSearch f (y * 2) (e - 1) - (e - 1) + 1 =
              (expSearch f (y * 2) (e - 1) - e + 1) + 1 := by ring
          rw [eR, two_zpow_succ] at hb
          linarith
    · simp only [sub_self, zpow_zero, zero_add, zpow_one]
      exact ⟨by linarith [not_lt.mp hy1], hy2⟩
    · rcases Nat.eq_zero_or_pos f with hf | hf
      · subst hf
        exfalso
        norm_num at h2
        linarith [not_lt.mp hy2]
      · have hy2' : (2:Rat) ≤ y := not_lt.mp hy2
        have hle1 : (2:Rat) ^ (1 - (f:Int)) ≤ 1 :=
          zpow_le_one_of_nonpos₀ (by norm_num) (by omega)
        rw [two_zpow_succ] at h2
        obtain ⟨ha, hb⟩ := ih (y / 2) (e + 1) (by linarith) (by linarith)
        constructor
        · have eL : expSearch f (y / 2) (e + 1) - (e + 1) =
              (expSearch f (y / 2) (e + 1) - e) - 1 := by ring
          rw [eL, two_zpow_pred] at ha
          linarith
        · have eR : expSearch f (y / 2) (e + 1) - (e + 1) + 1 =
              (expSearch f (y / 2) (e + 1) - e + 1) - 1 := by ring
          rw [eR, two_zpow_pred] at hb
          linarith

/-- Helper: within the fuel range, ratLog2Floor brackets its argument
between consecutive powers of two. -/
theorem ratLog2Floor_spec (x : Rat) (h1 : (2:Rat) ^ ((1:Int) - 1100) ≤ x)
    (h2 : x < (2:Rat) ^ ((1100:Int))) :
    (2:Rat) ^ (ratLog2Floor x) ≤ x ∧ x < (2:Rat) ^ (ratLog2Floor x + 1) := by
  have h := expSearch_spec 1100 x 0 (by norm_num at h1 ⊢; exact h1)
    (by norm_num at h2 ⊢; exact h2)
  simpa using h

/-- Helper: the binade bracket determines ratLog2Floor uniquely. -/
theorem ratLog2Floor_eq (x : Rat) (k : Int)
    (hr1 : (2:Rat) ^ ((1:Int) - 1100) ≤ x) (hr2 : x < (2:Rat) ^ ((1100:Int)))
    (h1 : (2:Rat) ^ k ≤ x) (h2 : x < (2:Rat) ^ (k + 1)) :
    ratLog2Floor x = k := by
  obtain ⟨ha, hb⟩ := ratLog2Floor_spec x hr1 hr2
  have h3 : ratLog2Floor x < k + 1 :=
    (zpow_lt_zpow_iff_right₀ (by norm_num : (1:Rat) < 2)).mp (lt_of_le_of_lt ha h2)
  have h4 : k < ratLog2Floor x + 1 :=
    (zpow_lt_zpow_iff_right₀ (by norm_num : (1:Rat) < 2)).mp (lt_of_le_of_lt h1 hb)
  omega

/-- Helper: rounding to the nearest integer with ties to even moves a
rational by at most one half. -/
theorem roundHalfEven_abs (y : Rat) : |((roundHalfEven y : Int) : Rat) - y| ≤ 1 / 2 := by
  have h1 : ((Int.floor y : Int) : Rat) ≤ y := Int.floor_le y
  have h2 : y < ((Int.floor y : Int) : Rat) + 1 := Int.lt_floor_add_one y
  simp only [roundHalfEven]
  split_ifs with ha hb hc <;> rw [abs_le] <;> push_cast <;> constructor <;> linarith

/-- Helper: over the fuel range of the binade search, rounding a positive
rational to 53 significant bits has relative error at most 2 to the
minus 53. -/
theorem roundPos_err (x : Rat) (h1 : (2:Rat) ^ ((1:Int) - 1100) ≤ x)
    (h2 : x < (2:Rat) ^ ((1100:Int))) :
    |roundPos x - x| ≤ x * (2:Rat) ^ (-(53:Int)) := by
  obtain ⟨he1, _⟩ := ratLog2Floor_spec x h1 h2
  simp only [roundPos]
  set e := ratLog2Floor x with hE
  set r := roundHalfEven (x * (2:Rat) ^ ((52:Int) - e)) with hR
  have habs : |((r : Int) : Rat) - x * (2:Rat) ^ ((52:Int) - e)| ≤ 1 / 2 := roundHalfEven_abs _
  have hpos2 : (0:Rat) < 2 ^ (e - (52:Int)) := zpow_pos (by norm_num) _
  have hmulinv : (2:Rat) ^ ((52:Int) - e) * 2 ^ (e - (52:Int)) = 1 := by
    rw [← zpow_add₀ (by norm_num : (2:Rat) ≠ 0)]
    norm_num
  have h3 : |((r : Int) : Rat) - x * 2 ^ ((52:Int) - e)| * 2 ^ (e - (52:Int)) ≤
      (1 / 2) * 2 ^ (e - (52:Int)) :=
    mul_le_mul_of_nonneg_right habs (le_of_lt hpos2)
  have h4 : |((r : Int) : Rat) - x * 2 ^ ((52:Int) - e)| * 2 ^ (e - (52:Int)) =
      |((r : Int) : Rat) * 2 ^ (e - (52:Int)) - x| := by
    calc |((r : Int) : Rat) - x * 2 ^ ((52:Int) - e)| * 2 ^ (e - (52:Int))
        = |((r : Int) : Rat) - x * 2 ^ ((52:Int) - e)| * |(2:Rat) ^ (e - (52:Int))| := by
          rw [abs_of_pos hpos2]
      _ = |(((r : Int) : Rat) - x * 2 ^ ((52:Int) - e)) * 2 ^ (e - (52:Int))| :=
          (abs_mul _ _).symm
      _ = |((r : Int) : Rat) * 2 ^ (e - (52:Int)) - x| := by
          rw [sub_mul, mul_assoc, hmulinv, mul_one]
  have h5 : (1 / 2) * (2:Rat) ^ (e - (52:Int)) ≤ x * 2 ^ (-(53:Int)) := by
    have ha : (1 / 2) * (2:Rat) ^ (e - (52:Int)) = 2 ^ (e - (53:Int)) := by
      have : (e - (53:Int)) = (e - 52) - 1 := by ring
      rw [this, two_zpow_pred]
      ring
    have hb2 : (2:Rat) ^ (e - (53:Int)) = 2 ^ e * 2 ^ (-(53:Int)) := by
      rw [← zpow_add₀ (by norm_num : (2:Rat) ≠ 0)]
      congr 1
    rw [ha, hb2]
    exact mul_le_mul_of_nonneg_right he1 (le_of_lt (zpow_pos (by norm_num) _))
  calc |((r : Int) : Rat) * 2 ^ (e - (52:Int)) - x|
      = |((r : Int) : Rat) - x * 2 ^ ((52:Int) - e)| * 2 ^ (e - (52:Int)) := h4.symm
    _ ≤ (1 / 2) * 2 ^ (e - (52:Int)) := h3
    _ ≤ x * 2 ^ (-(53:Int)) := h5

/-- Helper: two-sided relative bounds for rounding a positive rational to
binary64 precision. -/
theorem roundToDouble_bounds (x : Rat) (hx : 0 < x)
    (h1 : (2:Rat) ^ ((1:Int) - 1100) ≤ x) (h2 : x < (2:Rat) ^ ((1100:Int))) :
    x * (1 - (2:Rat) ^ (-(53:Int))) ≤ roundToDouble x ∧
    roundToDouble x ≤ x * (1 + (2:Rat) ^ (-(53:Int))) := by
  have hrtd : roundToDouble x = roundPos x := by
    rw [roundToDouble, if_neg (ne_of_gt hx), if_neg (not_lt.mpr (le_of_lt hx))]
  obtain ⟨hlo, hhi⟩ := abs_le.mp (roundPos_err x h1 h2)
  rw [hrtd]
  constructor <;> nlinarith [hlo, hhi]

/-- Helper: the binary64 value of 0.94 as an explicit rational, for the
linear-arithmetic steps below. -/
theorem double094_val : double094 = 2116691824864133 / 2251799813685248 := rfl

/-- Helper: one trigger keeps a budget between 0 and 2 to the 52
nonnegative, never increases it, fixes 0, and otherwise leaves it unchanged
or strictly decreases it. -/
theorem updateBudget_step (m : Int) (t : Rat) (h0 : 0 ≤ m) (h1 : m ≤ 2 ^ 52) :
    0 ≤ Evaluator.updateBudget m t ∧ Evaluator.updateBudget m t ≤ m ∧
    (m = 0 → Evaluator.updateBudget m t = 0) ∧
    (Evaluator.updateBudget m t = m ∨ Evaluator.updateBudget m t < m) := by
  by_cases ht : t > 10 * 60
  case neg =>
    rw [Evaluator.updateBudget, if_neg ht]
    exact ⟨h0, le_refl m, fun h => h, Or.inl rfl⟩
  case pos =>
    rw [Evaluator.updateBudget, if_pos ht]
    rcases eq_or_lt_of_le h0 with hm0 | hm1
    · have hz : pyInt (roundToDouble ((m : Rat) * double094)) = 0 := by
        rw [← hm0]
        norm_num [roundToDouble, pyInt]
      rw [hz, ← hm0]
      exact ⟨le_refl 0, le_refl 0, fun _ => rfl, Or.inl rfl⟩
    · have hc : (0:Rat) < double094 := by norm_num [double094_val]
      have hmr : (1:Rat) ≤ (m : Rat) := by exact_mod_cast hm1
      have hmr2 : (m : Rat) ≤ 2 ^ (52 : Nat) := by
        have := h1
        exact_mod_cast this
      set x : Rat := (m : Rat) * double094 with hX
      have hx_pos : 0 < x := mul_pos (by linarith) hc
      have hx_lo : (2:Rat) ^ ((1:Int) - 1100) ≤ x := by
        have hch : (1:Rat) / 2 ≤ double094 := by norm_num [double094_val]
        have h12 : (1:Rat) / 2 ≤ x := by rw [hX]; nlinarith
        calc (2:Rat) ^ ((1:Int) - 1100) ≤ 1 / 2 := by norm_num
          _ ≤ x := h12
      have hx_hi : x < (2:Rat) ^ ((1100:Int)) := by
        have ha : x ≤ (2:Rat) ^ (52 : Nat) * double094 :=
          mul_le_mul_of_nonneg_right hmr2 (le_of_lt hc)
        have hb : (2:Rat) ^ (52 : Nat) * double094 < 2 ^ ((1100:Int)) := by
          norm_num [double094_val]
        linarith
      obtain ⟨hlo, hhi⟩ := roundToDouble_bounds x hx_pos hx_lo hx_hi
      set y := roundToDouble x with hY
      have heps : (2:Rat) ^ (-(53:Int)) = 1 / 9007199254740992 := by norm_num
      rw [heps] at hlo hhi
      have hy0 : 0 ≤ y := by nlinarith
      have hy_lt : y < (m : Rat) := by
        have hkey : double094 * (1 + 1 / 9007199254740992) < 1 := by norm_num [double094_val]
        have : x * (1 + 1 / 9007199254740992) < (m : Rat) := by
          rw [hX]
          nlinarith
        linarith
      have hpy : pyInt y = Int.floor y := by rw [pyInt, if_neg (not_lt.mpr hy0)]
      rw [hpy]
      have hfl0 : 0 ≤ Int.floor y := Int.le_floor.mpr (by exact_mod_cast hy0)
      have hflm : Int.floor y < m := Int.floor_lt.mpr (by exact_mod_cast hy_lt)
      exact ⟨hfl0, le_of_lt hflm, fun h => absurd h (by omega), Or.inr hflm⟩

/-- Claim C9: across every sequence of triggers the episode budget is
monotonically non-increasing, never negative, each further trigger leaves
it unchanged or strictly decreases it, and a zero budget stays zero
forever.  The budget is assumed to start nonnegative and within the
binary64-exact integer range. -/
theorem evaluator_budget_monotone (ts : List Rat) (n : Int) (h0 : 0 ≤ n) (h1 : n ≤ 2 ^ 52) :
    0 ≤ budgetAfter ts n ∧ budgetAfter ts n ≤ n ∧ (n = 0 → budgetAfter ts n = 0) ∧
    ∀ t, Evaluator.updateBudget (budgetAfter ts n) t = budgetAfter ts n ∨
      Evaluator.updateBudget (budgetAfter ts n) t < budgetAfter ts n := by
  induction ts generalizing n with
  | nil =>
    exact ⟨h0, le_refl n, fun h => h, fun t => (updateBudget_step n t h0 h1).2.2.2⟩
  | cons t ts ih =>
    obtain ⟨hs0, hs1, hs2, _⟩ := updateBudget_step n t h0 h1
    obtain ⟨ha, hb, hc, hd⟩ := ih (Evaluator.updateBudget n t) hs0 (le_trans hs1 h1)
    exact ⟨ha, le_trans hb hs1, fun hz => hc (hs2 hz), hd⟩

/-- Witness for C9 at the concrete trigger-time sequence 700, 10 starting
from budget 100. -/
theorem evaluator_budget_monotone_witness :
    0 ≤ budgetAfter [700, 10] 100 ∧ budgetAfter [700, 10] 100 ≤ 100 ∧
    ((100:Int) = 0 → budgetAfter [700, 10] 100 = 0) ∧
    ∀ t, Evaluator.updateBudget (budgetAfter [700, 10] 100) t = budgetAfter [700, 10] 100 ∨
      Evaluator.updateBudget (budgetAfter [700, 10] 100) t < budgetAfter [700, 10] 100 :=
  evaluator_budget_monotone [700, 10] 100 (by decide) (by decide)

/-- Counterexample to C6 as stated: at budget 2150 with measured time 601
seconds the code computes int(2150 * 0.94) in binary64 arithmetic; the
binary64 product is 2020.9999999999998 so the new budget is 2020, while
the claimed exact value, 2150 times 0.94 floored, is 2021. -/
theorem evaluator_decay_float_counterexample :
    Evaluator.updateBudget 2150 601 = 2020 ∧
    Int.floor ((2150 : Rat) * (94 / 100)) = 2021 := by
  constructor
  · have hx : ((2150 : Int) : Rat) * double094 = 2275443711728942975 / 1125899906842624 := by
      norm_num [double094_val]
    rw [Evaluator.updateBudget, if_pos (by norm_num : (601:Rat) > 10 * 60), hx]
    have hlog : ratLog2Floor ((2275443711728942975 : Rat) / 1125899906842624) = 10 := by
      apply ratLog2Floor_eq
      · calc (2:Rat) ^ ((1:Int) - 1100) ≤ 1 / 2 := by norm_num
          _ ≤ (2275443711728942975 : Rat) / 1125899906842624 := by norm_num
      · calc (2275443711728942975 : Rat) / 1125899906842624 ≤ 2048 := by norm_num
          _ < 2 ^ ((1100:Int)) := by norm_num
      · norm_num
      · norm_num
    rw [roundToDouble, if_neg (by norm_num), if_neg (by norm_num)]
    simp only [roundPos, hlog]
    have hf : Int.floor ((2275443711728942975 : Rat) / 1125899906842624 *
        (2:Rat) ^ ((52:Int) - 10)) = 8888451998941183 := by norm_num
    simp only [roundHalfEven, hf]
    norm_num [pyInt]
  · norm_num

/-- Claim C6, amended: on every trigger with measured wall-clock at most
600 seconds the budget is unchanged; on every trigger exceeding 600
seconds the next budget is int(old * 0.94) computed in binary64
floating-point arithmetic, which lies within one of the exact value
floor(old * 0.94) and can fall one below it (see the counterexample at
budget 2150). -/
theorem evaluator_decay_update (n : Int) (t : Rat) (h0 : 0 ≤ n) (h1 : n ≤ 2 ^ 52) :
    (¬ t > 10 * 60 → Evaluator.updateBudget n t = n) ∧
    (t > 10 * 60 →
      Int.floor ((n : Rat) * (94 / 100)) - 1 ≤ Evaluator.updateBudget n t ∧
      Evaluator.updateBudget n t ≤ Int.floor ((n : Rat) * (94 / 100)) + 1) := by
  constructor
  · intro ht
    rw [Evaluator.updateBudget, if_neg ht]
  · intro ht
    rw [Evaluator.updateBudget, if_pos ht]
    rcases eq_or_lt_of_le h0 with hm0 | hm1
    · rw [← hm0]
      norm_num [roundToDouble, pyInt]
    · have hc : (0:Rat) < double094 := by norm_num [double094_val]
      have hmr : (1:Rat) ≤ (n : Rat) := by exact_mod_cast hm1
      have hmr2 : (n : Rat) ≤ 2 ^ (52 : Nat) := by exact_mod_cast h1
      set x : Rat := (n : Rat) * double094 with hX
      have hx_pos : 0 < x := mul_pos (by linarith) hc
      have hx_lo : (2:Rat) ^ ((1:Int) - 1100) ≤ x := by
        have hch : (1:Rat) / 2 ≤ double094 := by norm_num [double094_val]
        have h12 : (1:Rat) / 2 ≤ x := by rw [hX]; nlinarith
        calc (2:Rat) ^ ((1:Int) - 1100) ≤ 1 / 2 := by norm_num
          _ ≤ x := h12
      have hx_hi : x < (2:Rat) ^ ((1100:Int)) := by
        have ha : x ≤ (2:Rat) ^ (52 : Nat) * double094 :=
          mul_le_mul_of_nonneg_right hmr2 (le_of_lt hc)
        have hb : (2:Rat) ^ (52 : Nat) * double094 < 2 ^ ((1100:Int)) := by
          norm_num [double094_val]
        linarith
      obtain ⟨hlo, hhi⟩ := roundToDouble_bounds x hx_pos hx_lo hx_hi
      set y := roundToDouble x with hY
      have heps : (2:Rat) ^ (-(53:Int)) = 1 / 9007199254740992 := by norm_num
      rw [heps] at hlo hhi
      have hxnum : x = (n : Rat) * (2116691824864133 / 2251799813685248) := by
        rw [hX, double094_val]
      rw [hxnum] at hlo hhi
      have hy0 : 0 ≤ y := by nlinarith
      have hpy : pyInt y = Int.floor y := by rw [pyInt, if_neg (not_lt.mpr hy0)]
      rw [hpy]
      have hF1 : ((Int.floor ((n : Rat) * (94 / 100)) : Int) : Rat) ≤ (n : Rat) * (94 / 100) :=
        Int.floor_le _
      have hF2 : (n : Rat) * (94 / 100) < (Int.floor ((n : Rat) * (94 / 100)) : Rat) + 1 :=
        Int.lt_floor_add_one _
      constructor
      · apply Int.le_floor.mpr
        push_cast
        nlinarith [hlo, hmr2, hF1]
      · have hup : Int.floor y < Int.floor ((n : Rat) * (94 / 100)) + 2 := by
          apply Int.floor_lt.mpr
          push_cast
          nlinarith [hhi, hmr2, hF2]
        omega

/-- Witness for the amended C6 at the diverging budget 2150 (decay branch)
and at budget 100 with a fast evaluation (unchanged branch). -/
theorem evaluator_decay_update_witness :
    (Int.floor (((2150 : Int) : Rat) * (94 / 100)) - 1 ≤ Evaluator.updateBudget 2150 601 ∧
      Evaluator.updateBudget 2150 601 ≤ Int.floor (((2150 : Int) : Rat) * (94 / 100)) + 1) ∧
    Evaluator.updateBudget 100 500 = 100 := by
  constructor
  · exact (evaluator_decay_update 2150 601 (by decide) (by decide)).2 (by norm_num)
  · exact (evaluator_decay_update 100 500 (by decide) (by decide)).1 (by norm_num)
